import Mathlib

/-!
Verification development for the `codedx-cli-client` repository
(`src/client.rs`): a shallow embedding of the API client's error model,
response pipeline, polling engine and typed operations, together with
theorems settling the specified properties.

Modelling conventions:
* `reqwest::Response` becomes `HttpResponse`: a status code (`Nat`) plus the
  outcome of reading the body as text (`Except IOErr String`), which is what
  the client code observes of a response.
* `reqwest::Error` is opaque to the client; it is modelled as a `String`
  payload inside `ApiError.Protocol`.
* External serde/reqwest decoding functions (`serde_json::from_str`,
  `Response::json`) are parameters of the embedded operations: the client
  code treats them as black boxes, and the claims are stated for every
  decoder, instantiated with concrete ones in the witnesses.
* The blocking `thread::sleep` has no observable effect in the embedding
  (real time is not modelled); the polling loop's sequence of status fetches
  is supplied as a list of outcomes, one consumed per iteration, so that
  "number of fetches performed" is the number of list elements consumed.
-/

/-- Local I/O failure (`std::io::Error`), opaque to the client code, carried
by its message. -/
structure IOErr where
  msg : String
deriving DecidableEq, Repr

/-- Enumeration of the 5 possible statuses of a Code Dx job
(`JobStatus` in `client.rs`). -/
inductive JobStatus where
  | Queued
  | Running
  | Cancelled
  | Completed
  | Failed
deriving DecidableEq, Repr

/-- Embeds `JobStatus::is_ready`. -/
def JobStatus.is_ready : JobStatus → Bool
  | .Completed => true
  | .Failed => true
  | _ => false

/-- Embeds `JobStatus::is_success`. -/
def JobStatus.is_success : JobStatus → Bool
  | .Completed => true
  | _ => false

/-- Serialization of `JobStatus` to its JSON wire string. Modelled from the
spec: the serde `Serialize` derive under `#[serde(rename_all = "lowercase")]`
(the derive's generated code is external to the repository) emits the
variant name lowercased. -/
def JobStatus.serialize : JobStatus → String
  | .Queued => "queued"
  | .Running => "running"
  | .Cancelled => "cancelled"
  | .Completed => "completed"
  | .Failed => "failed"

/-- Deserialization of a `JobStatus` wire string. Modelled from the spec:
the serde `Deserialize` derive under `#[serde(rename_all = "lowercase")]`
accepts exactly the lowercased variant names. -/
def JobStatus.deserialize (s : String) : Option JobStatus :=
  if s = "queued" then some .Queued
  else if s = "running" then some .Running
  else if s = "cancelled" then some .Cancelled
  else if s = "completed" then some .Completed
  else if s = "failed" then some .Failed
  else none

/-- C7: for every `JobStatus` value `s`, `s.is_ready` is true if and only if
`s` is `Completed` or `Failed`, and `s.is_success` is true if and only if
`s` is `Completed`. -/
theorem claim_C7_ready_success_classification :
    ∀ s : JobStatus,
      (s.is_ready = true ↔ s = .Completed ∨ s = .Failed) ∧
      (s.is_success = true ↔ s = .Completed) := by
  intro s
  cases s <;> simp [JobStatus.is_ready, JobStatus.is_success]

/-- C8: serializing then deserializing any `JobStatus` yields the identical
value, and the wire forms are exactly the five lowercase strings. -/
theorem claim_C8_roundtrip :
    ∀ s : JobStatus,
      JobStatus.deserialize (JobStatus.serialize s) = some s ∧
      JobStatus.serialize s ∈
        ["queued", "running", "cancelled", "completed", "failed"] := by
  intro s
  cases s <;> exact ⟨by decide, by decide⟩

/-- Structured error message classification (`ApiErrorMessage` in
`client.rs`): `Nice` for a parsed `ErrorMessageResponse` body, `Raw` for a
body preserved verbatim. -/
inductive ApiErrorMessage where
  | Nice (s : String)
  | Raw (s : String)
deriving DecidableEq, Repr

/-- Things that can go wrong when making requests with the API (`ApiError`
in `client.rs`). `Protocol` carries the opaque `reqwest::Error` as its
message; `Io` embeds the source's local-I/O variant. -/
inductive ApiError where
  | Protocol (e : String)
  | NonSuccess (status : Nat) (msg : ApiErrorMessage)
  | Io (e : IOErr)
deriving DecidableEq, Repr

/-- What the client code observes of a `reqwest::Response`: the HTTP status
code and the outcome of reading the body as text (`read_to_string`). -/
structure HttpResponse where
  status : Nat
  bodyText : Except IOErr String
deriving Repr

/-- Embeds `hyper::StatusCode::is_success`: the 2xx success range. -/
def StatusCode.is_success (code : Nat) : Bool :=
  200 ≤ code && code < 300

/-- Embeds `ApiErrorMessage::from_body`, parameterized by `from_str`, the
external `serde_json::from_str::<ErrorMessageResponse>` deserializer
composed with projecting its `error` field (`some e` on parse success,
`none` on any parse failure). Reads the body text (I/O failure becomes
`ApiError.Io`), tries the structured parse (`Nice`), and falls back to the
verbatim body (`Raw`). -/
def ApiErrorMessage.from_body (from_str : String → Option String)
    (response : HttpResponse) : Except ApiError ApiErrorMessage :=
  (response.bodyText.mapError ApiError.Io).bind fun body =>
    match from_str body with
    | some err => Except.ok (ApiErrorMessage.Nice err)
    | none => Except.ok (ApiErrorMessage.Raw body)

/-- Embeds the `ApiResponse` wrapper: a `Result<reqwest::Response, ApiError>`
(`ApiResult<reqwest::Response>`). -/
abbrev ApiResponse := Except ApiError HttpResponse

/-- Embeds `ApiResponse::get`: unwraps without any success or shape check. -/
def ApiResponse.get (r : ApiResponse) : Except ApiError HttpResponse := r

/-- Embeds `ApiResponse::expect_success`: passes an inner error through
unchanged; passes a success-range response through unchanged; classifies any
other response into `ApiError.NonSuccess` via `ApiErrorMessage.from_body`. -/
def ApiResponse.expect_success (from_str : String → Option String)
    (r : ApiResponse) : ApiResponse :=
  r.bind fun response =>
    if StatusCode.is_success response.status then
      Except.ok response
    else
      (ApiErrorMessage.from_body from_str response).bind fun response_msg =>
        Except.error (ApiError.NonSuccess response.status response_msg)

/-- Embeds `ApiResponse::expect_json::<T>`, parameterized by `json`, the
external `reqwest::Response::json::<T>` decoder (`Except.error` is a reqwest
decode failure, which the client wraps as `ApiError.Protocol`). -/
def ApiResponse.expect_json {T : Type} (json : HttpResponse → Except String T)
    (r : ApiResponse) : Except ApiError T :=
  r.bind fun response => (json response).mapError ApiError.Protocol

/-- Strips an exact expected character sequence from the front of a list,
returning the remainder, or `none` if the front differs. -/
def stripExact : List Char → List Char → Option (List Char)
  | [], rest => some rest
  | _ :: _, [] => none
  | p :: ps, c :: cs => if c = p then stripExact ps cs else none

/-- Splits a character list at its first double quote, returning the parts
before and after it, or `none` when no quote occurs. -/
def splitAtQuote : List Char → Option (List Char × List Char)
  | [] => none
  | c :: cs =>
    if c = '"' then some ([], cs)
    else (splitAtQuote cs).map fun p => (c :: p.1, p.2)

/-- Modelled from the spec: a concrete instance of the external
`serde_json::from_str::<ErrorMessageResponse>` deserializer (projected onto
its `error` field) used to instantiate witnesses. It recognizes exactly the
escape-free shape `{"error":"<text>"}` of the spec's concrete scenarios and
reports a parse failure on every other input. -/
def errorMessageFromStr (s : String) : Option String :=
  match stripExact ("\x7b\"error\":\"".data) s.data with
  | none => none
  | some rest =>
    match splitAtQuote rest with
    | none => none
    | some (mid, tail) =>
      if tail = ['\x7d'] then some (String.mk mid) else none

/-- C1: for every completed exchange whose status is outside the success
range, `expect_success` replaces the result with
`NonSuccess(status, message)`, where `message` is `Nice e` when the body
text parses as the structured error shape and otherwise `Raw b` with the
body text `b` preserved verbatim; when reading the body text itself fails,
the result is `ApiError.Io` instead. -/
theorem claim_C1_nonsuccess_classification
    (from_str : String → Option String) (status : Nat)
    (body : Except IOErr String)
    (h : StatusCode.is_success status = false) :
    ApiResponse.expect_success from_str (Except.ok ⟨status, body⟩) =
      match body with
      | .error e => Except.error (ApiError.Io e)
      | .ok b =>
        Except.error (ApiError.NonSuccess status
          (match from_str b with
           | some e => ApiErrorMessage.Nice e
           | none => ApiErrorMessage.Raw b)) := by
  cases body with
  | error e =>
    simp [ApiResponse.expect_success, ApiErrorMessage.from_body, h,
      Except.bind, Except.mapError]
  | ok b =>
    cases hp : from_str b <;>
      simp [ApiResponse.expect_success, ApiErrorMessage.from_body, h, hp,
        Except.bind, Except.mapError]

/-- Witness for C1: the spec's concrete scenario of a 500 response with the
non-JSON body `internal server error`, classified as `Raw` verbatim. -/
theorem claim_C1_witness :
    StatusCode.is_success 500 = false ∧
    ApiResponse.expect_success errorMessageFromStr
        (Except.ok ⟨500, Except.ok "internal server error"⟩) =
      Except.error (ApiError.NonSuccess 500
        (ApiErrorMessage.Raw "internal server error")) := by
  refine ⟨by decide, ?_⟩
  have h := claim_C1_nonsuccess_classification errorMessageFromStr 500
    (Except.ok "internal server error") (by decide)
  rw [h]
  rfl

/-- C3: in the chain `expect_success` then `expect_json`, an error already
present is passed through unchanged by each stage, so the earliest failure
wins; in particular a 404 response whose body parses as the structured error
`not found` yields `NonSuccess 404 (Nice "not found")` for every JSON
decoder, i.e. the decode of `T` is never attempted. -/
theorem claim_C3_chain_short_circuit
    {T : Type} (from_str : String → Option String)
    (json : HttpResponse → Except String T)
    (e : ApiError) (r404 : HttpResponse) (b : String)
    (hstatus : r404.status = 404) (hbody : r404.bodyText = Except.ok b)
    (hparse : from_str b = some "not found") :
    ApiResponse.expect_success from_str (Except.error e) = Except.error e ∧
    ApiResponse.expect_json json (Except.error e : ApiResponse) =
      Except.error e ∧
    ApiResponse.expect_json json
        (ApiResponse.expect_success from_str (Except.ok r404)) =
      Except.error (ApiError.NonSuccess 404 (ApiErrorMessage.Nice "not found")) := by
  refine ⟨rfl, rfl, ?_⟩
  obtain ⟨st, bt⟩ := r404
  simp only at hstatus hbody
  subst hstatus
  subst hbody
  simp [ApiResponse.expect_json, ApiResponse.expect_success,
    ApiErrorMessage.from_body, hparse, StatusCode.is_success,
    Except.bind, Except.mapError]

/-- Witness for C3: the spec's concrete 404 scenario, instantiated with a
decoder for `Nat` that would fail if it were ever attempted. -/
theorem claim_C3_witness :
    (⟨404, Except.ok "\x7b\"error\":\"not found\"\x7d"⟩ : HttpResponse).status = 404 ∧
    errorMessageFromStr "\x7b\"error\":\"not found\"\x7d" = some "not found" ∧
    ApiResponse.expect_json (fun _ => (Except.error "never" : Except String Nat))
        (ApiResponse.expect_success errorMessageFromStr
          (Except.ok ⟨404, Except.ok "\x7b\"error\":\"not found\"\x7d"⟩)) =
      Except.error (ApiError.NonSuccess 404 (ApiErrorMessage.Nice "not found")) := by
  refine ⟨rfl, by decide, ?_⟩
  exact (claim_C3_chain_short_circuit errorMessageFromStr
    (fun _ => (Except.error "never" : Except String Nat))
    (ApiError.Protocol "unused")
    ⟨404, Except.ok "\x7b\"error\":\"not found\"\x7d"⟩
    "\x7b\"error\":\"not found\"\x7d" rfl rfl (by decide)).2.2

/-- Embeds the `PollingStrategy<JobStatus>` trait: its single method
`next_wait(iteration_number, state) -> Option<Duration>`, with `Duration`
modelled as a `Nat` (the sleep itself has no observable effect in the
embedding). -/
abbrev PollingStrategy := Nat → JobStatus → Option Nat

/-- Embeds the `impl PollingStrategy<T> for Duration`: always waits the
fixed duration and never aborts (its `println!` diagnostic is a side effect
with no observable result). -/
def fixedWait (d : Nat) : PollingStrategy := fun _ _ => some d

/-- Embeds the loop of `ApiClient::poll_job_completion`: the successive
outcomes of `get_job_status` are supplied as a list, one consumed per
iteration, and `iteration_number` is threaded exactly as in the source
(incremented right after each fetch). The returned pair is the loop's
`break` value together with the final `iteration_number`, i.e. the number of
status fetches performed; `none` means the supplied outcomes were exhausted
with the loop still polling. -/
def poll_loop (strategy : PollingStrategy) :
    List (Except ApiError JobStatus) → Nat →
      Option (Except ApiError JobStatus × Nat)
  | [], _ => none
  | status_result :: rest, iteration_number =>
    let n := iteration_number + 1
    match status_result with
    | Except.ok status =>
      if status.is_ready then some (Except.ok status, n)
      else
        match strategy n status with
        | some _wait_dur => poll_loop strategy rest n
        | none => some (Except.ok status, n)
    | Except.error _ => some (status_result, n)

/-- Embeds `ApiClient::poll_job_completion`: runs the polling loop starting
from `iteration_number = 0`. -/
def poll_job_completion (strategy : PollingStrategy)
    (fetches : List (Except ApiError JobStatus)) :
    Option (Except ApiError JobStatus × Nat) :=
  poll_loop strategy fetches 0

/-- A run of the polling loop skips over a block of successful non-ready
fetches for which the strategy keeps waiting, advancing the iteration
counter past the block. -/
theorem poll_loop_skips_nonready (strategy : PollingStrategy)
    (pre : List JobStatus) (tail : List (Except ApiError JobStatus)) :
    ∀ k : Nat,
      (∀ i (h : i < pre.length), (pre.get ⟨i, h⟩).is_ready = false ∧
        (strategy (k + i + 1) (pre.get ⟨i, h⟩)).isSome = true) →
      poll_loop strategy (pre.map Except.ok ++ tail) k =
        poll_loop strategy tail (k + pre.length) := by
  induction pre with
  | nil => intro k _; rfl
  | cons p ps ih =>
    intro k hpre
    have hp := hpre 0 (Nat.succ_pos ps.length)
    simp only [List.get] at hp
    obtain ⟨hready, hsome⟩ := hp
    obtain ⟨w, hw⟩ := Option.isSome_iff_exists.mp hsome
    have step : poll_loop strategy ((p :: ps).map Except.ok ++ tail) k =
        poll_loop strategy (ps.map Except.ok ++ tail) (k + 1) := by
      rw [show k + 0 + 1 = k + 1 by omega] at hw
      simp [poll_loop, hready, hw]
    rw [step, ih (k + 1) ?_]
    · rw [show k + 1 + ps.length = k + (ps.length + 1) by omega]
      rfl
    · intro i h
      have h' := hpre (i + 1) (Nat.succ_lt_succ h)
      simp only [List.get] at h'
      rw [show k + 1 + i + 1 = k + (i + 1) + 1 by omega]
      exact h'

/-- C2: for every sequence of successful status fetches under the fixed-wait
strategy, `poll_job_completion` stops at the first fetch returning a ready
status and returns it as `Ok`, having performed exactly one fetch per
preceding non-ready status plus the final one (the fetches after the ready
one, `rest`, are arbitrary and never consumed). -/
theorem claim_C2_stops_at_first_ready (d : Nat) (pre : List JobStatus)
    (s : JobStatus) (rest : List (Except ApiError JobStatus))
    (hpre : ∀ x ∈ pre, x.is_ready = false) (hs : s.is_ready = true) :
    poll_job_completion (fixedWait d)
        (pre.map Except.ok ++ (Except.ok s :: rest)) =
      some (Except.ok s, pre.length + 1) := by
  unfold poll_job_completion
  rw [poll_loop_skips_nonready (fixedWait d) pre _ 0 ?_]
  · simp [poll_loop, hs]
  · intro i h
    exact ⟨hpre _ (pre.get_mem i h), rfl⟩

/-- Witness for C2: the spec's scenario `Queued, Running, Completed` with a
fixed wait of duration 0 yields `Ok(Completed)` after exactly 3 fetches. -/
theorem claim_C2_witness :
    (∀ x ∈ [JobStatus.Queued, JobStatus.Running], x.is_ready = false) ∧
    JobStatus.Completed.is_ready = true ∧
    poll_job_completion (fixedWait 0)
        [Except.ok JobStatus.Queued, Except.ok JobStatus.Running,
         Except.ok JobStatus.Completed] =
      some (Except.ok JobStatus.Completed, 3) := by
  refine ⟨by decide, by decide, ?_⟩
  have h := claim_C2_stops_at_first_ready 0 [JobStatus.Queued, JobStatus.Running]
    JobStatus.Completed [] (by decide) (by decide)
  simpa using h

/-- C4: when the strategy returns `None` at some iteration while the status
is still non-ready, `poll_job_completion` stops without performing another
fetch (the remaining fetches `rest` are arbitrary and never consumed) and
returns `Ok` of the most recently observed non-ready status. -/
theorem claim_C4_abort_returns_last_status (strategy : PollingStrategy)
    (pre : List JobStatus) (s : JobStatus)
    (rest : List (Except ApiError JobStatus))
    (hpre : ∀ i (h : i < pre.length), (pre.get ⟨i, h⟩).is_ready = false ∧
      (strategy (i + 1) (pre.get ⟨i, h⟩)).isSome = true)
    (hs : s.is_ready = false)
    (habort : strategy (pre.length + 1) s = none) :
    poll_job_completion strategy
        (pre.map Except.ok ++ (Except.ok s :: rest)) =
      some (Except.ok s, pre.length + 1) := by
  unfold poll_job_completion
  rw [poll_loop_skips_nonready strategy pre _ 0 ?_]
  · simp [poll_loop, hs, habort]
  · intro i h
    simpa using hpre i h

/-- Witness for C4: the spec's scenario `Queued, Running, Running, …` with a
strategy returning `None` on iteration 2 yields `Ok(Running)` after exactly
2 fetches; the third supplied fetch is never consumed. -/
theorem claim_C4_witness :
    JobStatus.Running.is_ready = false ∧
    ((fun n (_ : JobStatus) => if n < 2 then some 0 else none) :
      PollingStrategy) 2 JobStatus.Running = none ∧
    poll_job_completion (fun n _ => if n < 2 then some 0 else none)
        [Except.ok JobStatus.Queued, Except.ok JobStatus.Running,
         Except.ok JobStatus.Running] =
      some (Except.ok JobStatus.Running, 2) := by
  refine ⟨by decide, by decide, ?_⟩
  have h := claim_C4_abort_returns_last_status
    (fun n _ => if n < 2 then some 0 else none)
    [JobStatus.Queued] JobStatus.Running [Except.ok JobStatus.Running]
    (by decide) (by decide) (by decide)
  simpa using h

/-- C5: when a status fetch returns an error, `poll_job_completion` stops
immediately with that error: no later fetch is consumed (`rest` is
arbitrary) and the strategy is constrained only at the earlier iterations,
so the result does not depend on the strategy at the failing iteration; with
an empty prefix the strategy is entirely unconstrained, i.e. never
invoked. -/
theorem claim_C5_error_stops_poll (strategy : PollingStrategy)
    (pre : List JobStatus) (e : ApiError)
    (rest : List (Except ApiError JobStatus))
    (hpre : ∀ i (h : i < pre.length), (pre.get ⟨i, h⟩).is_ready = false ∧
      (strategy (i + 1) (pre.get ⟨i, h⟩)).isSome = true) :
    poll_job_completion strategy
        (pre.map Except.ok ++ (Except.error e :: rest)) =
      some (Except.error e, pre.length + 1) := by
  unfold poll_job_completion
  rw [poll_loop_skips_nonready strategy pre _ 0 ?_]
  · simp [poll_loop]
  · intro i h
    simpa using hpre i h

/-- Witness for C5: a first fetch failing with a `Protocol` error stops the
poll at once, for a strategy about which nothing is assumed. -/
theorem claim_C5_witness :
    poll_job_completion (fixedWait 7)
        [Except.error (ApiError.Protocol "connection refused")] =
      some (Except.error (ApiError.Protocol "connection refused"), 1) := by
  have h := claim_C5_error_stops_poll (fixedWait 7) []
    (ApiError.Protocol "connection refused") []
    (fun i h => absurd h (Nat.not_lt_zero i))
  simpa using h

/-- HTTP method (the subset of `hyper::Method` used by the client). -/
inductive Method where
  | Get
  | Post
  | Put
deriving DecidableEq, Repr

/-- One part of a `reqwest::multipart::Form`: the form field name and the
path of the attached file. -/
structure MultipartPart where
  name : String
  path : String
deriving DecidableEq, Repr

/-- Minimal JSON value model, enough for the request bodies the client
builds with the `json!` macro. -/
inductive JsonValue where
  | str (s : String)
  | num (n : Int)
  | obj (fields : List (String × JsonValue))

/-- Embeds the `ReqBody` enum of `client.rs`: multipart form, JSON body, or
no body. -/
inductive ReqBody where
  | Form (form : List MultipartPart)
  | Json (json : JsonValue)
  | None

/-- The externals behind `ApiClient::api_request` (config URL resolution,
auth injection, and the `reqwest` send): given the method, the logical path
segments and the body, produce the outcome of the exchange. -/
abbrev Transport := Method → List String → ReqBody → ApiResponse

/-- Embeds `ApiClient::api_request`: the single chokepoint every operation
passes through, here the application of the transport. -/
def api_request (transport : Transport) (method : Method)
    (path_segments : List String) (body : ReqBody) : ApiResponse :=
  transport method path_segments body

/-- Embeds `ApiClient::api_get`. -/
def api_get (transport : Transport) (path_segments : List String) :
    ApiResponse :=
  api_request transport Method.Get path_segments ReqBody.None

/-- Embeds `ApiClient::api_post`. -/
def api_post (transport : Transport) (path_segments : List String)
    (body : ReqBody) : ApiResponse :=
  api_request transport Method.Post path_segments body

/-- Embeds `ApiClient::api_put`. -/
def api_put (transport : Transport) (path_segments : List String)
    (body : ReqBody) : ApiResponse :=
  api_request transport Method.Put path_segments body

/-- Embeds `JobStatusResponse`: the decoded job-status resource, carrying
the echoed job id and the actual status. -/
structure JobStatusResponse where
  job_id : String
  status : JobStatus
deriving DecidableEq, Repr

/-- Embeds `ApiAnalysisJobResponse`. -/
structure ApiAnalysisJobResponse where
  analysis_id : Nat
  job_id : String
deriving DecidableEq, Repr

/-- Embeds `ApiClient::get_job_status`, parameterized by the transport, the
error-body deserializer and the `JobStatusResponse` decoder: GET the job
resource, expect success, decode, project out the `status` field. -/
def get_job_status (transport : Transport)
    (from_str : String → Option String)
    (json : HttpResponse → Except String JobStatusResponse)
    (job_id : String) : Except ApiError JobStatus :=
  (ApiResponse.expect_json json
      (ApiResponse.expect_success from_str
        (api_get transport ["api", "jobs", job_id]))).map
    fun jsr => jsr.status

/-- Embeds `reqwest::multipart::Form::file` (external to the repository):
attaching a file appends a named part, or fails with the I/O error the
file system (modelled by `attach`) reports for that path. -/
def Form.file (attach : String → Except IOErr Unit)
    (form : List MultipartPart) (name : String) (path : String) :
    Except IOErr (List MultipartPart) :=
  (attach path).map fun _ => form ++ [⟨name, path⟩]

/-- The fold step of `ApiClient::start_analysis`: thread the possibly-failed
form through `Form.file`, naming the part `file{index}` from the zero-based
enumeration index. -/
def start_analysis_fold_step (attach : String → Except IOErr Unit)
    (maybe_form : Except IOErr (List MultipartPart)) (p : Nat × String) :
    Except IOErr (List MultipartPart) :=
  maybe_form.bind fun form => Form.file attach form ("file" ++ toString p.1) p.2

/-- The `form` local of `ApiClient::start_analysis`: fold the enumerated
files into a multipart form, short-circuiting on the first attach failure,
and wrap the error as `ApiError.Io`. -/
def start_analysis_form (attach : String → Except IOErr Unit)
    (files : List String) : Except ApiError (List MultipartPart) :=
  (files.enum.foldl (start_analysis_fold_step attach)
      (Except.ok [])).mapError ApiError.Io

/-- Embeds `ApiClient::start_analysis`: build the form, then POST it to the
project's analysis resource and decode the job response. -/
def start_analysis (transport : Transport)
    (from_str : String → Option String)
    (json : HttpResponse → Except String ApiAnalysisJobResponse)
    (attach : String → Except IOErr Unit)
    (project_id : Nat) (files : List String) :
    Except ApiError ApiAnalysisJobResponse :=
  (start_analysis_form attach files).bind fun form =>
    ApiResponse.expect_json json
      (ApiResponse.expect_success from_str
        (api_post transport
          ["api", "projects", toString project_id, "analysis"]
          (ReqBody.Form form)))

/-- Embeds `ApiClient::set_analysis_name`: PUT the rename payload, expect
success, unwrap without reading the body, and discard the value. -/
def set_analysis_name (transport : Transport)
    (from_str : String → Option String)
    (project_id : Nat) (analysis_id : Nat) (name : String) :
    Except ApiError Unit :=
  (ApiResponse.get
      (ApiResponse.expect_success from_str
        (api_put transport
          ["x", "projects", toString project_id, "analyses",
            toString analysis_id]
          (ReqBody.Json (JsonValue.obj [("name", JsonValue.str name)]))))).map
    fun _ => ()

/-- Once the threaded form has failed, the rest of the fold keeps the same
failure. -/
theorem start_analysis_fold_error (attach : String → Except IOErr Unit)
    (l : List (Nat × String)) (e : IOErr) :
    l.foldl (start_analysis_fold_step attach) (Except.error e) =
      Except.error e := by
  induction l with
  | nil => rfl
  | cons p ps ih =>
    rw [List.foldl_cons]
    exact ih

/-- When every file in the block attaches successfully, the fold appends one
part per file, named `file{index}` from the enumeration index, in input
order. -/
theorem start_analysis_fold_ok (attach : String → Except IOErr Unit)
    (l : List String) :
    ∀ (n : Nat) (acc : List MultipartPart),
      (∀ x ∈ l, attach x = Except.ok ()) →
      (l.enumFrom n).foldl (start_analysis_fold_step attach) (Except.ok acc) =
        Except.ok (acc ++ (l.enumFrom n).map
          fun p => ⟨"file" ++ toString p.1, p.2⟩) := by
  induction l with
  | nil =>
    intro n acc _
    simp [List.enumFrom]
  | cons x xs ih =>
    intro n acc hok
    have hx : attach x = Except.ok () := hok x (List.mem_cons_self x xs)
    have step1 : start_analysis_fold_step attach (Except.ok acc) (n, x) =
        Except.ok (acc ++ [⟨"file" ++ toString n, x⟩]) := by
      simp [start_analysis_fold_step, Form.file, hx, Except.bind, Except.map]
    rw [show List.enumFrom n (x :: xs) = (n, x) :: List.enumFrom (n + 1) xs
      from rfl]
    rw [List.foldl_cons, step1]
    rw [ih (n + 1) _ (fun y hy => hok y (List.mem_cons_of_mem x hy))]
    simp

/-- When the first attach failure occurs at position `k` of the block, the
fold short-circuits to exactly that I/O error. -/
theorem start_analysis_fold_fail (attach : String → Except IOErr Unit)
    (l : List String) :
    ∀ (k : Nat) (hk : k < l.length) (e : IOErr) (n : Nat)
      (acc : List MultipartPart),
      attach (l.get ⟨k, hk⟩) = Except.error e →
      (∀ i (h : i < k), attach (l.get ⟨i, Nat.lt_trans h hk⟩) = Except.ok ()) →
      (l.enumFrom n).foldl (start_analysis_fold_step attach) (Except.ok acc) =
        Except.error e := by
  induction l with
  | nil =>
    intro k hk
    exact absurd hk (Nat.not_lt_zero k)
  | cons x xs ih =>
    intro k hk e n acc hfail hbefore
    rw [show List.enumFrom n (x :: xs) = (n, x) :: List.enumFrom (n + 1) xs
      from rfl, List.foldl_cons]
    cases k with
    | zero =>
      have hx : attach x = Except.error e := hfail
      have step1 : start_analysis_fold_step attach (Except.ok acc) (n, x) =
          Except.error e := by
        simp [start_analysis_fold_step, Form.file, hx, Except.bind, Except.map]
      rw [step1]
      exact start_analysis_fold_error attach _ e
    | succ j =>
      have hx : attach x = Except.ok () := hbefore 0 (Nat.succ_pos j)
      have step1 : start_analysis_fold_step attach (Except.ok acc) (n, x) =
          Except.ok (acc ++ [⟨"file" ++ toString n, x⟩]) := by
        simp [start_analysis_fold_step, Form.file, hx, Except.bind, Except.map]
      rw [step1]
      exact ih j (Nat.lt_of_succ_lt_succ hk) e (n + 1) _ hfail
        (fun i h => hbefore (i + 1) (Nat.succ_lt_succ h))

/-- C6: `start_analysis` builds the multipart form by folding over the files
in input order into parts named `file0`, `file1`, … from the zero-based
index, and when some file fails to attach (first failure at position `k`) it
short-circuits to `ApiError.Io` — for every transport, so no HTTP request is
issued. -/
theorem claim_C6_multipart_build_and_short_circuit
    (transport : Transport) (from_str : String → Option String)
    (json : HttpResponse → Except String ApiAnalysisJobResponse)
    (attach attachF : String → Except IOErr Unit)
    (files filesF : List String) (project_id : Nat)
    (hok : ∀ x ∈ files, attach x = Except.ok ())
    (k : Nat) (hk : k < filesF.length) (e : IOErr)
    (hfail : attachF (filesF.get ⟨k, hk⟩) = Except.error e)
    (hbefore : ∀ i (h : i < k),
      attachF (filesF.get ⟨i, Nat.lt_trans h hk⟩) = Except.ok ()) :
    start_analysis_form attach files =
      Except.ok (files.enum.map fun p => ⟨"file" ++ toString p.1, p.2⟩) ∧
    start_analysis transport from_str json attachF project_id filesF =
      Except.error (ApiError.Io e) := by
  constructor
  · unfold start_analysis_form
    rw [show files.enum = files.enumFrom 0 from rfl]
    rw [start_analysis_fold_ok attach files 0 [] hok]
    rfl
  · unfold start_analysis start_analysis_form
    rw [show filesF.enum = filesF.enumFrom 0 from rfl]
    rw [start_analysis_fold_fail attachF filesF k hk e 0 [] hfail hbefore]
    rfl

/-- Witness for C6: two readable files produce parts `file0`, `file1` in
input order; a batch whose second file is unreadable yields the `IO` error
under a transport that would answer 200 if it were ever reached. -/
theorem claim_C6_witness :
    start_analysis_form (fun _ => Except.ok ()) ["a.zip", "b.zip"] =
      Except.ok [⟨"file0", "a.zip"⟩, ⟨"file1", "b.zip"⟩] ∧
    start_analysis (fun _ _ _ => Except.ok ⟨200, Except.ok "\x7b\x7d"⟩)
        errorMessageFromStr (fun _ => Except.error "unused")
        (fun p => if p = "missing.zip" then Except.error ⟨"no such file"⟩
          else Except.ok ())
        42 ["good.zip", "missing.zip", "later.zip"] =
      Except.error (ApiError.Io ⟨"no such file"⟩) := by
  have h := claim_C6_multipart_build_and_short_circuit
    (fun _ _ _ => Except.ok ⟨200, Except.ok "\x7b\x7d"⟩) errorMessageFromStr
    (fun _ => Except.error "unused")
    (fun _ => Except.ok ())
    (fun p => if p = "missing.zip" then Except.error ⟨"no such file"⟩
      else Except.ok ())
    ["a.zip", "b.zip"] ["good.zip", "missing.zip", "later.zip"] 42
    (fun x _ => rfl) 1 (by decide) ⟨"no such file"⟩ (by rfl)
    (fun i h => by
      cases i with
      | zero => rfl
      | succ j => exact absurd h (by omega))
  exact ⟨h.1.trans (by rfl), h.2⟩

/-- C9: `get_job_status` never checks the `jobId` echoed by the job-status
response against the requested job id: whenever the exchange succeeds and
the decoded response carries status `st`, the result is `Ok st` whatever the
echoed `jobId` is; in particular two success responses whose decodings
differ only in the `jobId` field produce the identical result. -/
theorem claim_C9_ignores_echoed_job_id
    (transport₁ transport₂ : Transport)
    (from_str₁ from_str₂ : String → Option String)
    (json₁ json₂ : HttpResponse → Except String JobStatusResponse)
    (job_id₁ job_id₂ : String) (r₁ r₂ : HttpResponse)
    (jid₁ jid₂ : String) (st : JobStatus)
    (htr₁ : transport₁ Method.Get ["api", "jobs", job_id₁] ReqBody.None =
      Except.ok r₁)
    (hs₁ : StatusCode.is_success r₁.status = true)
    (hd₁ : json₁ r₁ = Except.ok ⟨jid₁, st⟩)
    (htr₂ : transport₂ Method.Get ["api", "jobs", job_id₂] ReqBody.None =
      Except.ok r₂)
    (hs₂ : StatusCode.is_success r₂.status = true)
    (hd₂ : json₂ r₂ = Except.ok ⟨jid₂, st⟩) :
    get_job_status transport₁ from_str₁ json₁ job_id₁ = Except.ok st ∧
    get_job_status transport₂ from_str₂ json₂ job_id₂ = Except.ok st := by
  constructor
  · unfold get_job_status api_get api_request
    rw [htr₁]
    simp [ApiResponse.expect_success, ApiResponse.expect_json, hs₁, hd₁,
      Except.bind, Except.mapError, Except.map]
  · unfold get_job_status api_get api_request
    rw [htr₂]
    simp [ApiResponse.expect_success, ApiResponse.expect_json, hs₂, hd₂,
      Except.bind, Except.mapError, Except.map]

/-- Witness for C9: two exchanges for the requested job `job-123` whose
decoded bodies echo the unrelated ids `JOB-A` and `JOB-B` both project out
`Ok Running`. -/
theorem claim_C9_witness :
    get_job_status (fun _ _ _ => Except.ok ⟨200, Except.ok "body-a"⟩)
        errorMessageFromStr
        (fun _ => Except.ok ⟨"JOB-A", JobStatus.Running⟩) "job-123" =
      Except.ok JobStatus.Running ∧
    get_job_status (fun _ _ _ => Except.ok ⟨200, Except.ok "body-b"⟩)
        errorMessageFromStr
        (fun _ => Except.ok ⟨"JOB-B", JobStatus.Running⟩) "job-123" =
      Except.ok JobStatus.Running := by
  exact claim_C9_ignores_echoed_job_id
    (fun _ _ _ => Except.ok ⟨200, Except.ok "body-a"⟩)
    (fun _ _ _ => Except.ok ⟨200, Except.ok "body-b"⟩)
    errorMessageFromStr errorMessageFromStr
    (fun _ => Except.ok ⟨"JOB-A", JobStatus.Running⟩)
    (fun _ => Except.ok ⟨"JOB-B", JobStatus.Running⟩)
    "job-123" "job-123"
    ⟨200, Except.ok "body-a"⟩ ⟨200, Except.ok "body-b"⟩
    "JOB-A" "JOB-B" JobStatus.Running
    rfl (by decide) rfl rfl (by decide) rfl

/-- C10: `set_analysis_name` never inspects the body of a success response:
for every response in the success range it returns `Ok ()`, whatever the
body text holds (even an I/O-failing body) and whatever the error-body
deserializer would say, so it can never produce a `Protocol` error from
decoding a success body. -/
theorem claim_C10_discards_success_body
    (transport : Transport)
    (from_str₁ from_str₂ : String → Option String)
    (project_id analysis_id : Nat) (name : String) (r : HttpResponse)
    (htr : transport Method.Put
        ["x", "projects", toString project_id, "analyses",
          toString analysis_id]
        (ReqBody.Json (JsonValue.obj [("name", JsonValue.str name)])) =
      Except.ok r)
    (hs : StatusCode.is_success r.status = true) :
    set_analysis_name transport from_str₁ project_id analysis_id name =
      Except.ok () ∧
    set_analysis_name transport from_str₂ project_id analysis_id name =
      Except.ok () := by
  constructor <;>
  · unfold set_analysis_name api_put api_request
    rw [htr]
    simp [ApiResponse.expect_success, ApiResponse.get, hs,
      Except.bind, Except.map]

/-- Witness for C10: a 204 response whose body is not JSON (and a second
error-body deserializer rejecting everything) still yields `Ok ()`. -/
theorem claim_C10_witness :
    set_analysis_name (fun _ _ _ => Except.ok ⟨204, Except.ok "not json"⟩)
        errorMessageFromStr 7 9 "new name" = Except.ok () ∧
    set_analysis_name (fun _ _ _ => Except.ok ⟨204, Except.ok "not json"⟩)
        (fun _ => none) 7 9 "new name" = Except.ok () := by
  exact claim_C10_discards_success_body
    (fun _ _ _ => Except.ok ⟨204, Except.ok "not json"⟩)
    errorMessageFromStr (fun _ => none) 7 9 "new name"
    ⟨204, Except.ok "not json"⟩ rfl (by decide)
